import Mathlib

/-! A shallow embedding of `src/multi_pidns.c`, which creates a chain of child
processes in nested PID namespaces.

* The program talks to the kernel only through system calls, so one run is
  modelled by the list of calls it makes (`Ev`), each tagged with the process
  that makes it.  Every process of the chain executes `childFunc` exactly once;
  it is identified by the value of `arg` it was started with (these values are
  pairwise different along one chain, because each `clone` passes `level - 1`).
* Whether a system call succeeds is decided by the kernel.  `Env` is that
  oracle: one boolean per process and per call site.
* `static int first_call` is process state.  It is threaded explicitly: the
  function receives the current value, and a cloned child starts with the value
  the parent holds at the time of `clone` (the child gets a copy of the address
  space of the parent, as `CLONE_VM` is not among the flags).
* The parent blocks in `waitpid` until its child has terminated, so the events
  of a child lie between the `clone` event and the `waitpid` event of its
  parent; the chain is linear and the trace is a list.
-/

namespace MultiPidns

/-! ## Constants -/

/-- Value of `PATH_MAX` in the Linux `limits.h`. -/
def PATH_MAX : Nat := 4096

/-- Constant `STACK_SIZE` (line 30). -/
def STACK_SIZE : Nat := 1024 * 1024

/-- Constant `EXIT_SUCCESS` of `stdlib.h`. -/
def EXIT_SUCCESS : Int := 0

/-- Constant `EXIT_FAILURE` of `stdlib.h`. -/
def EXIT_FAILURE : Int := 1

/-! ## Events -/

/-- One observable action of a process.  `ok` is the result the kernel gave. -/
inductive Call where
  /-- Line 50, `mkdir(mount_point, 0555)`; the result is recorded, the program ignores it. -/
  | mkdir (path : String) (ok : Bool)
  /-- Line 51, `mount("proc", mount_point, "proc", 0, NULL)`. -/
  | mount (target : String) (ok : Bool)
  /-- Lines 53 and 87, `printf`. -/
  | printf (out : String)
  /-- Line 66, `mmap` of `STACK_SIZE` bytes. -/
  | mmap (ok : Bool)
  /-- Line 71, `clone(childFunc, ..., CLONE_NEWPID | SIGCHLD, (void *) level)`. -/
  | clone (arg : Int) (ok : Bool)
  /-- Line 78, return of `waitpid(child_pid, NULL, 0)`; `child` names the awaited process. -/
  | waitpid (child : Int) (ok : Bool)
  /-- Line 81, `munmap(stack, STACK_SIZE)`. -/
  | munmap (ok : Bool)
  /-- Line 88, `execlp(file, argv...)`. -/
  | execlp (file : String) (argv : List String) (ok : Bool)
  /-- Macro `errExit`, line 26, `perror(msg)`. -/
  | perror (msg : String)
  /-- Macro `errExit`, line 27, and `main`, line 99: `exit(status)`. -/
  | exit (status : Int)
  /-- Line 92, `return 0` of `childFunc`. -/
  | ret (value : Int)
  deriving DecidableEq

/-- An event: the process `who` (named by the `arg` its `childFunc` got) performs `call`. -/
structure Ev where
  who : Int
  call : Call
  deriving DecidableEq

/-- How one activation of `childFunc` ends. -/
inductive Fate where
  /-- The function returned `value` to its caller. -/
  | returned (value : Int)
  /-- The process called `exit(status)`. -/
  | exited (status : Int)
  /-- The process image was replaced by the workload (`execlp` succeeded). -/
  | execed
  deriving DecidableEq

/-- Result of running a piece of the program: the events, and how it ended. -/
structure Outcome where
  trace : List Ev
  fate : Fate
  deriving DecidableEq

/-- The events `evs` happen, then `o`. -/
def Outcome.pre (evs : List Ev) (o : Outcome) : Outcome :=
  ⟨evs ++ o.trace, o.fate⟩

/-- The kernel: for the process started with a given `arg`, does the call succeed? -/
structure Env where
  mkdir : Int → Bool
  mount : Int → Bool
  mmap : Int → Bool
  clone : Int → Bool
  waitpid : Int → Bool
  munmap : Int → Bool
  execlp : Int → Bool

/-- The kernel in a run in which no system call fails. -/
def Env.allOk : Env :=
  ⟨fun _ => true, fun _ => true, fun _ => true, fun _ => true,
   fun _ => true, fun _ => true, fun _ => true⟩

/-! ## The mount point (lines 46 to 48) -/

/-- The byte that `%c` writes for `(char)('0' + level)`: the value is reduced
to eight bits (`'0'` is 48). -/
def levelChar (level : Int) : Nat := ((48 + level) % 256).toNat

/-- Content of the buffer after `snprintf(buf, size, "/proc%c", c)`: the
formatted bytes, cut to `size - 1`, and the terminating zero byte. -/
def snprintf_proc (size : Nat) (c : Nat) : List Nat :=
  ([47, 112, 114, 111, 99, c].take (size - 1)) ++ [0]

/-- The C string held in a buffer: the bytes before the first zero byte, each
shown as the character with that code. -/
def cString (buf : List Nat) : String :=
  String.mk ((buf.takeWhile (fun b => b != 0)).map Char.ofNat)

/-- Lines 46 to 48: the string `mount_point` computed from `level`. -/
def mount_point (level : Int) : String :=
  cString (snprintf_proc PATH_MAX (levelChar level))

/-! ## errExit, childFunc, main -/

/-- Macro `errExit(msg)` (lines 24 to 28) run by process `who`. -/
def errExit (who : Int) (msg : String) : Outcome :=
  ⟨[⟨who, .perror msg⟩, ⟨who, .exit EXIT_FAILURE⟩], .exited EXIT_FAILURE⟩

/-- Lines 58 to 92 of `childFunc`, in the process `who`, with the current
values of `first_call` and `level`.  `child fc a` is what a process cloned with
the static `first_call = fc` and the argument `a` does until it terminates. -/
def childFuncTail (env : Env) (child : Bool → Int → Outcome) (who : Int)
    (first_call : Bool) (level : Int) : Outcome :=
  if level > 0 then
    let level := level - 1                                        -- line 63
    if env.mmap who then                                          -- line 66
      Outcome.pre [⟨who, .mmap true⟩] <|
      if env.clone who then                                       -- line 71
        Outcome.pre (⟨who, .clone level true⟩ :: (child first_call level).trace) <|
        if env.waitpid who then                                   -- line 78
          Outcome.pre [⟨who, .waitpid level true⟩] <|
          if env.munmap who then                                  -- line 81
            ⟨[⟨who, .munmap true⟩, ⟨who, .ret 0⟩], .returned 0⟩   -- line 92
          else Outcome.pre [⟨who, .munmap false⟩] (errExit who "munmap")
        else Outcome.pre [⟨who, .waitpid level false⟩] (errExit who "waitpid")
      else Outcome.pre [⟨who, .clone level false⟩] (errExit who "clone")
    else Outcome.pre [⟨who, .mmap false⟩] (errExit who "mmap")
  else
    Outcome.pre [⟨who, .printf "Final child sleeping\n"⟩] <|      -- line 87
    if env.execlp who then                                        -- line 88
      ⟨[⟨who, .execlp "sleep" ["sleep", "1000"] true⟩], .execed⟩
    else
      Outcome.pre [⟨who, .execlp "sleep" ["sleep", "1000"] false⟩] (errExit who "execlp")

/-- One activation of `childFunc(arg)` (lines 36 to 93) in a process whose
static `first_call` currently holds `first_call`. -/
def childFuncBody (env : Env) (child : Bool → Int → Outcome)
    (first_call : Bool) (arg : Int) : Outcome :=
  let who := arg
  let level := arg                                                -- line 38
  if !first_call then                                             -- line 40
    let mp := mount_point level                                   -- line 48
    Outcome.pre [⟨who, .mkdir mp (env.mkdir who)⟩] <|             -- line 50
    if env.mount who then                                         -- line 51
      Outcome.pre [⟨who, .mount mp true⟩,
                   ⟨who, .printf ("Mounting procfs at " ++ mp ++ "\n")⟩] <|
      childFuncTail env child who false level                     -- line 56
    else Outcome.pre [⟨who, .mount mp false⟩] (errExit who "mount")
  else
    childFuncTail env child who false level                       -- line 56

/-- Unrolling of the recursion through `clone`: `n` bounds the number of
nested processes still to be created. -/
def childFuncFuel (env : Env) : Nat → Bool → Int → Outcome
  | 0, first_call, arg => childFuncBody env (fun _ _ => ⟨[], .execed⟩) first_call arg
  | n + 1, first_call, arg => childFuncBody env (childFuncFuel env n) first_call arg

/-- Function `childFunc` together with all the processes it creates: `arg`
nested processes at most, so `arg.toNat` unrollings are enough
(see `childFunc_unfold`). -/
def childFunc (env : Env) (first_call : Bool) (arg : Int) : Outcome :=
  childFuncFuel env arg.toNat first_call arg

/-- Function `main` (lines 95 to 100).  `argv1` is `atoi(argv[1])` when an
argument is given.  The static `first_call` starts as 1. -/
def main (env : Env) (argv1 : Option Int) : Outcome :=
  let levels : Int := match argv1 with
    | some n => n
    | none => 5
  let r := childFunc env true levels                              -- line 97
  match r.fate with
  | .returned _ => ⟨r.trace ++ [⟨levels, .exit EXIT_SUCCESS⟩], .exited EXIT_SUCCESS⟩
  | _ => r

/-! ## Classification of events -/

/-- The event is a `mkdir`. -/
def Call.isMkdir : Call → Bool
  | .mkdir _ _ => true
  | _ => false

/-- The event is a `mount`. -/
def Call.isMount : Call → Bool
  | .mount _ _ => true
  | _ => false

/-- The event is a `mmap`. -/
def Call.isMmap : Call → Bool
  | .mmap _ => true
  | _ => false

/-- The event is a `clone`. -/
def Call.isClone : Call → Bool
  | .clone _ _ => true
  | _ => false

/-- The event is a `waitpid`. -/
def Call.isWaitpid : Call → Bool
  | .waitpid _ _ => true
  | _ => false

/-- The event is a `munmap`. -/
def Call.isMunmap : Call → Bool
  | .munmap _ => true
  | _ => false

/-- The event is an `execlp`. -/
def Call.isExec : Call → Bool
  | .execlp _ _ _ => true
  | _ => false

/-- The event is a `perror` (the report of a failure). -/
def Call.isPerror : Call → Bool
  | .perror _ => true
  | _ => false

/-- The calls by which the program acts on the operating system: everything
except output on the standard streams (`printf`, `perror`) and the end of the
activation (`exit`, `return`). -/
def Call.isSysCall : Call → Bool
  | .printf _ => false
  | .perror _ => false
  | .exit _ => false
  | .ret _ => false
  | _ => true

/-- The events that concern the stack of a process and the end of `childFunc`:
`mmap`, `clone`, `waitpid`, `munmap`, `return`. -/
def Call.isStackEv : Call → Bool
  | .mmap _ => true
  | .clone _ _ => true
  | .waitpid _ _ => true
  | .munmap _ => true
  | .ret _ => true
  | _ => false

/-- The target path of a `mount` event. -/
def Call.mountTarget : Call → Option String
  | .mount t _ => some t
  | _ => none

/-- The argument passed by a `clone` event. -/
def Call.cloneArg : Call → Option Int
  | .clone a _ => some a
  | _ => none

/-! ## Environments used as concrete inputs -/

/-- Every `mkdir` fails (for instance because the directories exist already),
every other call succeeds. -/
def Env.mkdirFails : Env := { Env.allOk with mkdir := fun _ => false }

/-- Every `mount` fails, every other call succeeds. -/
def Env.mountFails : Env := { Env.allOk with mount := fun _ => false }

/-- Every `mmap` fails, every other call succeeds. -/
def Env.mmapFails : Env := { Env.allOk with mmap := fun _ => false }

/-- Every `clone` fails, every other call succeeds. -/
def Env.cloneFails : Env := { Env.allOk with clone := fun _ => false }

/-- The `mount` of the process started with `arg = 0` fails, every other call succeeds. -/
def Env.mountFailsAt0 : Env := { Env.allOk with mount := fun a => a != 0 }

/-- The directory can neither be created nor mounted on: every `mkdir` and
every `mount` fails, every other call succeeds. -/
def Env.mkdirMountFail : Env :=
  { Env.allOk with mkdir := fun _ => false, mount := fun _ => false }

/-- The kernel `env`, except that the `mkdir` of the process started with `a`
succeeds. -/
def Env.mkdirOkAt (env : Env) (a : Int) : Env :=
  { env with mkdir := fun b => if b = a then true else env.mkdir b }

/-! ## Vocabulary for the statements -/

/-- Exit status of the process whose `childFunc` ended with the given fate: a
cloned process ends with the value its function returns (`clone(2)`), `exit`
gives its argument; after a successful `execlp` the workload decides. -/
def Fate.status : Fate → Option Int
  | .returned v => some v
  | .exited s => some s
  | .execed => none

/-- The levels `n - 1, n - 2, ..., 0`, in this order. -/
def countdown : Nat → List Int
  | 0 => []
  | n + 1 => (n : Int) :: countdown n

/-- Events of lines 40 to 54 in the process started with `arg`, when `mkdir`
and `mount` succeed: nothing on the first call, else `mkdir`, `mount`, `printf`. -/
def mountEvents (first_call : Bool) (arg : Int) : List Ev :=
  if first_call then []
  else [⟨arg, .mkdir (mount_point arg) true⟩,
        ⟨arg, .mount (mount_point arg) true⟩,
        ⟨arg, .printf ("Mounting procfs at " ++ mount_point arg ++ "\n")⟩]

/-- Selects the stack and return events of the process started with `a`. -/
def stackEvOf (a : Int) (e : Ev) : Bool :=
  decide (e.who = a) && e.call.isStackEv

/-! ## The recursion is well formed -/

theorem childFuncTail_congr (env : Env) (c1 c2 : Bool → Int → Outcome) (who : Int)
    (fc : Bool) (level : Int) (h : level > 0 → c1 fc (level - 1) = c2 fc (level - 1)) :
    childFuncTail env c1 who fc level = childFuncTail env c2 who fc level := by
  unfold childFuncTail
  by_cases hl : level > 0
  · simp [hl, h hl]
  · simp [hl]

theorem childFuncBody_congr (env : Env) (c1 c2 : Bool → Int → Outcome)
    (fc : Bool) (arg : Int) (h : arg > 0 → c1 false (arg - 1) = c2 false (arg - 1)) :
    childFuncBody env c1 fc arg = childFuncBody env c2 fc arg := by
  unfold childFuncBody
  simp only [childFuncTail_congr env c1 c2 arg false arg h]

/-- The unrolling in `childFunc` never runs out: `childFunc` is the function
whose body is `childFuncBody` and whose `clone` starts `childFunc` again. -/
theorem childFunc_unfold (env : Env) (fc : Bool) (arg : Int) :
    childFunc env fc arg = childFuncBody env (childFunc env) fc arg := by
  unfold childFunc
  cases hn : arg.toNat with
  | zero =>
    apply childFuncBody_congr
    intro h
    omega
  | succ n =>
    show childFuncBody env (childFuncFuel env n) fc arg = _
    apply childFuncBody_congr
    intro h
    have h1 : (arg - 1).toNat = n := by omega
    rw [h1]

/-! ## One activation: the failure paths -/

/-- C8: in a generation that is not the first (`first_call = 0`), a failing
`mount` ends the process at once with `perror("mount")` and
`exit(EXIT_FAILURE)`, before the test of `level`: the whole outcome is
`mkdir`, the failed `mount`, the report and the exit, so there is no `mmap`, no
`clone` and no `execlp`. -/
theorem mount_failure_is_fatal (env : Env) (arg : Int) (h : env.mount arg = false) :
    childFunc env false arg =
        ⟨[⟨arg, .mkdir (mount_point arg) (env.mkdir arg)⟩,
          ⟨arg, .mount (mount_point arg) false⟩,
          ⟨arg, .perror "mount"⟩,
          ⟨arg, .exit EXIT_FAILURE⟩], .exited EXIT_FAILURE⟩ ∧
      (∀ e ∈ (childFunc env false arg).trace,
        e.call.isMmap = false ∧ e.call.isClone = false ∧ e.call.isExec = false) := by
  have h1 : childFunc env false arg =
        ⟨[⟨arg, .mkdir (mount_point arg) (env.mkdir arg)⟩,
          ⟨arg, .mount (mount_point arg) false⟩,
          ⟨arg, .perror "mount"⟩,
          ⟨arg, .exit EXIT_FAILURE⟩], .exited EXIT_FAILURE⟩ := by
    rw [childFunc_unfold]
    simp [childFuncBody, h, Outcome.pre, errExit]
  refine ⟨h1, ?_⟩
  rw [h1]
  simp [Call.isMmap, Call.isClone, Call.isExec]

theorem mount_failure_is_fatal_witness :
    Env.mountFails.mount 3 = false ∧
      (childFunc Env.mountFails false 3 =
        ⟨[⟨3, .mkdir (mount_point 3) (Env.mountFails.mkdir 3)⟩,
          ⟨3, .mount (mount_point 3) false⟩,
          ⟨3, .perror "mount"⟩,
          ⟨3, .exit EXIT_FAILURE⟩], .exited EXIT_FAILURE⟩ ∧
      (∀ e ∈ (childFunc Env.mountFails false 3).trace,
        e.call.isMmap = false ∧ e.call.isClone = false ∧ e.call.isExec = false)) :=
  ⟨by decide, mount_failure_is_fatal Env.mountFails 3 (by decide)⟩

/-- C7: in a generation with `level > 0`, if `mmap` fails the process ends with
`exit(EXIT_FAILURE)`; its trace has no `clone`, no `waitpid` and no `munmap`,
and every event in it is made by this very process (no child, no deeper
generation). -/
theorem mmap_failure_is_fatal (env : Env) (first_call : Bool) (arg : Int)
    (hl : arg > 0) (h : env.mmap arg = false) :
    (childFunc env first_call arg).fate = .exited EXIT_FAILURE ∧
      (∀ e ∈ (childFunc env first_call arg).trace,
        e.call.isClone = false ∧ e.call.isWaitpid = false ∧ e.call.isMunmap = false ∧
        e.who = arg) ∧
      ((first_call = true ∨ env.mount arg = true) →
        (childFunc env first_call arg).trace.reverse.take 3 =
          [⟨arg, .exit EXIT_FAILURE⟩, ⟨arg, .perror "mmap"⟩, ⟨arg, .mmap false⟩]) := by
  rw [childFunc_unfold]
  cases first_call <;> cases hm : env.mount arg <;>
    simp [childFuncBody, childFuncTail, hl, h, hm, Outcome.pre, errExit,
      Call.isClone, Call.isWaitpid, Call.isMunmap]

theorem mmap_failure_is_fatal_witness :
    (2 : Int) > 0 ∧ Env.mmapFails.mmap 2 = false ∧
      ((childFunc Env.mmapFails false 2).fate = .exited EXIT_FAILURE ∧
      (∀ e ∈ (childFunc Env.mmapFails false 2).trace,
        e.call.isClone = false ∧ e.call.isWaitpid = false ∧ e.call.isMunmap = false ∧
        e.who = 2) ∧
      ((false = true ∨ Env.mmapFails.mount 2 = true) →
        (childFunc Env.mmapFails false 2).trace.reverse.take 3 =
          [⟨2, .exit EXIT_FAILURE⟩, ⟨2, .perror "mmap"⟩, ⟨2, .mmap false⟩])) :=
  ⟨by decide, by decide, mmap_failure_is_fatal Env.mmapFails false 2 (by decide) (by decide)⟩

/-! ### The result of mkdir is not used -/

theorem childFuncBody_env_congr (env1 env2 : Env) (child : Bool → Int → Outcome)
    (fc : Bool) (arg : Int)
    (h : env1.mkdir arg = env2.mkdir arg ∧ env1.mount arg = env2.mount arg ∧
      env1.mmap arg = env2.mmap arg ∧ env1.clone arg = env2.clone arg ∧
      env1.waitpid arg = env2.waitpid arg ∧ env1.munmap arg = env2.munmap arg ∧
      env1.execlp arg = env2.execlp arg) :
    childFuncBody env1 child fc arg = childFuncBody env2 child fc arg := by
  obtain ⟨h1, h2, h3, h4, h5, h6, h7⟩ := h
  simp only [childFuncBody, childFuncTail, h1, h2, h3, h4, h5, h6, h7]

/-- The run of a process depends on the answers of the kernel to this process
and to its descendants only. -/
theorem childFunc_env_congr (env1 env2 : Env) (fc : Bool) (arg : Int)
    (h : ∀ a, a ≤ arg →
      env1.mkdir a = env2.mkdir a ∧ env1.mount a = env2.mount a ∧
      env1.mmap a = env2.mmap a ∧ env1.clone a = env2.clone a ∧
      env1.waitpid a = env2.waitpid a ∧ env1.munmap a = env2.munmap a ∧
      env1.execlp a = env2.execlp a) :
    childFunc env1 fc arg = childFunc env2 fc arg := by
  generalize hn : arg.toNat = n
  induction n generalizing arg fc with
  | zero =>
    rw [childFunc_unfold env1, childFunc_unfold env2,
      childFuncBody_congr env1 (childFunc env1) (childFunc env2) fc arg (by intro hp; omega)]
    exact childFuncBody_env_congr env1 env2 _ fc arg (h arg (le_refl arg))
  | succ n ih =>
    have hc : arg > 0 → childFunc env1 false (arg - 1) = childFunc env2 false (arg - 1) := by
      intro _
      apply ih
      · intro a ha
        exact h a (by omega)
      · omega
    rw [childFunc_unfold env1, childFunc_unfold env2,
      childFuncBody_congr env1 (childFunc env1) (childFunc env2) fc arg hc]
    exact childFuncBody_env_congr env1 env2 _ fc arg (h arg (le_refl arg))

theorem childFunc_mkdirOkAt_below (env : Env) (arg a : Int) (fc : Bool) (h : a < arg) :
    childFunc (env.mkdirOkAt arg) fc a = childFunc env fc a := by
  apply childFunc_env_congr
  intro b hb
  have hne : ¬ b = arg := by omega
  simp [Env.mkdirOkAt, hne]

theorem childFuncTail_mkdirOkAt (env : Env) (child : Bool → Int → Outcome) (a who : Int)
    (fc : Bool) (level : Int) :
    childFuncTail (env.mkdirOkAt a) child who fc level = childFuncTail env child who fc level :=
  rfl

/-- The process started with `arg` whose `mkdir` succeeds, compared with the
same process under `env`: after the `mkdir` event both do the same. -/
theorem childFunc_mkdirOkAt (env : Env) (arg : Int) :
    (childFunc (env.mkdirOkAt arg) false arg).fate = (childFunc env false arg).fate ∧
      (childFunc (env.mkdirOkAt arg) false arg).trace =
        ⟨arg, .mkdir (mount_point arg) true⟩ :: (childFunc env false arg).trace.tail := by
  have hchild : arg > 0 →
      childFunc (env.mkdirOkAt arg) false (arg - 1) = childFunc env false (arg - 1) :=
    fun _ => childFunc_mkdirOkAt_below env arg (arg - 1) false (by omega)
  rw [childFunc_unfold (env.mkdirOkAt arg), childFunc_unfold env,
    childFuncBody_congr (env.mkdirOkAt arg) (childFunc (env.mkdirOkAt arg)) (childFunc env)
      false arg hchild]
  have hmount : (env.mkdirOkAt arg).mount arg = env.mount arg := rfl
  have hmk : (env.mkdirOkAt arg).mkdir arg = true := by simp [Env.mkdirOkAt]
  cases hm : env.mount arg <;>
    simp [childFuncBody, childFuncTail_mkdirOkAt, hmount, hmk, hm, Outcome.pre]

/-- C3, as the code has it: in a generation that is not the first, a failing
`mkdir` is neither reported nor fatal, its result is not used.  The `mount` on
the same path is the next event whatever `mkdir` returned.  If that `mount`
fails, the process ends with `perror("mount")` and `exit(EXIT_FAILURE)`, with
no `mmap`, no `clone` and no `execlp`.  If that `mount` succeeds, the process
prints the message of line 53 and goes on with the test of `level` (lines 58
to 92).  In both cases the fate of the process and all its events after the
`mkdir` event are those of the run in which this `mkdir` succeeds. -/
theorem mkdir_failure_then_mount (env : Env) (arg : Int) (h : env.mkdir arg = false) :
    (childFunc env false arg).trace.take 2 =
        [⟨arg, .mkdir (mount_point arg) false⟩,
         ⟨arg, .mount (mount_point arg) (env.mount arg)⟩] ∧
      (env.mount arg = false →
        childFunc env false arg =
          ⟨[⟨arg, .mkdir (mount_point arg) false⟩,
            ⟨arg, .mount (mount_point arg) false⟩,
            ⟨arg, .perror "mount"⟩,
            ⟨arg, .exit EXIT_FAILURE⟩], .exited EXIT_FAILURE⟩) ∧
      (env.mount arg = true →
        childFunc env false arg =
          Outcome.pre
            [⟨arg, .mkdir (mount_point arg) false⟩,
             ⟨arg, .mount (mount_point arg) true⟩,
             ⟨arg, .printf ("Mounting procfs at " ++ mount_point arg ++ "\n")⟩]
            (childFuncTail env (childFunc env) arg false arg)) ∧
      (childFunc env false arg).fate = (childFunc (env.mkdirOkAt arg) false arg).fate ∧
      (childFunc env false arg).trace =
        ⟨arg, .mkdir (mount_point arg) false⟩ ::
          (childFunc (env.mkdirOkAt arg) false arg).trace.tail ∧
      (childFunc (env.mkdirOkAt arg) false arg).trace.head? =
        some ⟨arg, .mkdir (mount_point arg) true⟩ := by
  obtain ⟨hf, ht⟩ := childFunc_mkdirOkAt env arg
  refine ⟨?_, ?_, ?_, hf.symm, ?_, ?_⟩
  · rw [childFunc_unfold]
    cases hm : env.mount arg <;>
      simp [childFuncBody, h, hm, Outcome.pre, errExit]
  · intro hm
    rw [childFunc_unfold]
    simp [childFuncBody, h, hm, Outcome.pre, errExit]
  · intro hm
    rw [childFunc_unfold]
    simp [childFuncBody, h, hm, Outcome.pre]
  · rw [ht, List.tail_cons, childFunc_unfold]
    cases hm : env.mount arg <;>
      simp [childFuncBody, h, hm, Outcome.pre]
  · rw [ht]
    rfl

theorem mkdir_failure_then_mount_witness :
    Env.mkdirFails.mkdir 1 = false ∧
      ((childFunc Env.mkdirFails false 1).trace.take 2 =
        [⟨1, .mkdir (mount_point 1) false⟩,
         ⟨1, .mount (mount_point 1) (Env.mkdirFails.mount 1)⟩] ∧
      (Env.mkdirFails.mount 1 = false →
        childFunc Env.mkdirFails false 1 =
          ⟨[⟨1, .mkdir (mount_point 1) false⟩,
            ⟨1, .mount (mount_point 1) false⟩,
            ⟨1, .perror "mount"⟩,
            ⟨1, .exit EXIT_FAILURE⟩], .exited EXIT_FAILURE⟩) ∧
      (Env.mkdirFails.mount 1 = true →
        childFunc Env.mkdirFails false 1 =
          Outcome.pre
            [⟨1, .mkdir (mount_point 1) false⟩,
             ⟨1, .mount (mount_point 1) true⟩,
             ⟨1, .printf ("Mounting procfs at " ++ mount_point 1 ++ "\n")⟩]
            (childFuncTail Env.mkdirFails (childFunc Env.mkdirFails) 1 false 1)) ∧
      (childFunc Env.mkdirFails false 1).fate =
        (childFunc (Env.mkdirFails.mkdirOkAt 1) false 1).fate ∧
      (childFunc Env.mkdirFails false 1).trace =
        ⟨1, .mkdir (mount_point 1) false⟩ ::
          (childFunc (Env.mkdirFails.mkdirOkAt 1) false 1).trace.tail ∧
      (childFunc (Env.mkdirFails.mkdirOkAt 1) false 1).trace.head? =
        some ⟨1, .mkdir (mount_point 1) true⟩) ∧
    Env.mkdirMountFail.mkdir 1 = false ∧ Env.mkdirMountFail.mount 1 = false ∧
      childFunc Env.mkdirMountFail false 1 =
        ⟨[⟨1, .mkdir (mount_point 1) false⟩,
          ⟨1, .mount (mount_point 1) false⟩,
          ⟨1, .perror "mount"⟩,
          ⟨1, .exit EXIT_FAILURE⟩], .exited EXIT_FAILURE⟩ :=
  ⟨by decide, mkdir_failure_then_mount Env.mkdirFails 1 (by decide),
   by decide, by decide,
   (mkdir_failure_then_mount Env.mkdirMountFail 1 (by decide)).2.1 (by decide)⟩

/-- C3 fails as stated: with every `mkdir` failing and every other call
succeeding, the process started with `arg = 1` and `first_call = 0` reports
nothing, mounts, maps a stack, clones, and returns 0; its child, whose `mkdir`
failed as well, mounts and execs the workload. -/
theorem mkdir_failure_not_fatal :
    Env.mkdirFails.mkdir 1 = false ∧ Env.mkdirFails.mkdir 0 = false ∧
      childFunc Env.mkdirFails false 1 =
        ⟨[⟨1, .mkdir "/proc1" false⟩,
          ⟨1, .mount "/proc1" true⟩,
          ⟨1, .printf "Mounting procfs at /proc1\n"⟩,
          ⟨1, .mmap true⟩,
          ⟨1, .clone 0 true⟩,
          ⟨0, .mkdir "/proc0" false⟩,
          ⟨0, .mount "/proc0" true⟩,
          ⟨0, .printf "Mounting procfs at /proc0\n"⟩,
          ⟨0, .printf "Final child sleeping\n"⟩,
          ⟨0, .execlp "sleep" ["sleep", "1000"] true⟩,
          ⟨1, .waitpid 0 true⟩,
          ⟨1, .munmap true⟩,
          ⟨1, .ret 0⟩], .returned 0⟩ := by
  decide

/-- C4, as the code has it: in a generation with `level > 0` that reaches
`clone` with its stack mapped, a failing `clone` ends the process with
`perror("clone")` and `exit(EXIT_FAILURE)` directly after the failed call.  No
`munmap` (and no `waitpid`) is issued, and no child runs. -/
theorem clone_failure_exits_without_munmap (env : Env) (first_call : Bool) (arg : Int)
    (hl : arg > 0) (hmount : first_call = true ∨ env.mount arg = true)
    (hmmap : env.mmap arg = true) (h : env.clone arg = false) :
    (childFunc env first_call arg).fate = .exited EXIT_FAILURE ∧
      (childFunc env first_call arg).trace.reverse.take 4 =
        [⟨arg, .exit EXIT_FAILURE⟩, ⟨arg, .perror "clone"⟩,
         ⟨arg, .clone (arg - 1) false⟩, ⟨arg, .mmap true⟩] ∧
      (∀ e ∈ (childFunc env first_call arg).trace,
        e.call.isMunmap = false ∧ e.call.isWaitpid = false ∧ e.who = arg) := by
  rw [childFunc_unfold]
  rcases hmount with hf | hm
  · subst hf
    simp [childFuncBody, childFuncTail, hl, h, hmmap, Outcome.pre, errExit,
      Call.isWaitpid, Call.isMunmap]
  · cases first_call <;>
      simp [childFuncBody, childFuncTail, hl, h, hm, hmmap, Outcome.pre, errExit,
        Call.isWaitpid, Call.isMunmap]

theorem clone_failure_exits_without_munmap_witness :
    (1 : Int) > 0 ∧ (true = true ∨ Env.cloneFails.mount 1 = true) ∧
      Env.cloneFails.mmap 1 = true ∧ Env.cloneFails.clone 1 = false ∧
      ((childFunc Env.cloneFails true 1).fate = .exited EXIT_FAILURE ∧
      (childFunc Env.cloneFails true 1).trace.reverse.take 4 =
        [⟨1, .exit EXIT_FAILURE⟩, ⟨1, .perror "clone"⟩,
         ⟨1, .clone (1 - 1) false⟩, ⟨1, .mmap true⟩] ∧
      (∀ e ∈ (childFunc Env.cloneFails true 1).trace,
        e.call.isMunmap = false ∧ e.call.isWaitpid = false ∧ e.who = 1)) :=
  ⟨by decide, by decide, by decide, by decide,
   clone_failure_exits_without_munmap Env.cloneFails true 1
     (by decide) (by decide) (by decide) (by decide)⟩

/-- C4 fails as stated: when `clone` fails in the process started by `main`
with depth 1, the stack has been mapped and the process exits with failure, but
the trace holds no `munmap`. -/
theorem clone_failure_no_munmap :
    main Env.cloneFails (some 1) =
        ⟨[⟨1, .mmap true⟩,
          ⟨1, .clone 0 false⟩,
          ⟨1, .perror "clone"⟩,
          ⟨1, .exit EXIT_FAILURE⟩], .exited EXIT_FAILURE⟩ ∧
      (main Env.cloneFails (some 1)).trace.filter (fun e => e.call.isMunmap) = [] := by
  decide

/-- C6: for depth 0 the run started from `main` issues, whatever the kernel
answers, no `mkdir`, no `mount`, no `mmap` and no `clone`; its only system call
is `execlp("sleep", "sleep", "1000", NULL)`.  When no call fails the run is
the `printf` of line 87 followed by that `execlp`, and the process image is
replaced. -/
theorem depth_zero_only_execs (env : Env) :
    (∀ e ∈ (main env (some 0)).trace,
        e.call.isMkdir = false ∧ e.call.isMount = false ∧
        e.call.isMmap = false ∧ e.call.isClone = false) ∧
      (main env (some 0)).trace.filter (fun e => e.call.isSysCall) =
        [⟨0, .execlp "sleep" ["sleep", "1000"] (env.execlp 0)⟩] ∧
      main Env.allOk (some 0) =
        ⟨[⟨0, .printf "Final child sleeping\n"⟩,
          ⟨0, .execlp "sleep" ["sleep", "1000"] true⟩], .execed⟩ := by
  refine ⟨?_, ?_, by decide⟩
  · unfold main
    simp only [childFunc_unfold env true 0]
    cases he : env.execlp 0 <;>
      simp [childFuncBody, childFuncTail, he, Outcome.pre, errExit,
        Call.isMkdir, Call.isMount, Call.isMmap, Call.isClone]
  · unfold main
    simp only [childFunc_unfold env true 0]
    cases he : env.execlp 0 <;>
      simp [childFuncBody, childFuncTail, he, Outcome.pre, errExit, Call.isSysCall]

/-! ## The parent does not look at the status of its child -/

theorem childFuncBody_fate_of_ok (env : Env) (child : Bool → Int → Outcome)
    (first_call : Bool) (arg : Int) (hl : arg > 0)
    (hmount : first_call = true ∨ env.mount arg = true)
    (hmmap : env.mmap arg = true) (hclone : env.clone arg = true)
    (hwait : env.waitpid arg = true) (hmunmap : env.munmap arg = true) :
    (childFuncBody env child first_call arg).fate = .returned 0 := by
  rcases hmount with hf | hm
  · subst hf
    simp [childFuncBody, childFuncTail, hl, hmmap, hclone, hwait, hmunmap, Outcome.pre]
  · cases first_call <;>
      simp [childFuncBody, childFuncTail, hl, hm, hmmap, hclone, hwait, hmunmap, Outcome.pre]

/-- C9: a generation with `level > 0` that gets as far as `waitpid` (its own
`mount`, `mmap` and `clone` having succeeded) and whose `waitpid` and `munmap`
succeed returns 0, that is, ends with the success status, for every behaviour
`child` of the process it reaps, whatever the fate and status of that child.
In particular this holds for the real child `childFunc env`, in which the
kernel `env` may make any deeper generation fail, and the process of `main`
then ends with `exit(EXIT_SUCCESS)`. -/
theorem parent_status_ignores_child (env : Env) (child : Bool → Int → Outcome)
    (first_call : Bool) (arg : Int) (hl : arg > 0)
    (hmount : first_call = true ∨ env.mount arg = true)
    (hmmap : env.mmap arg = true) (hclone : env.clone arg = true)
    (hwait : env.waitpid arg = true) (hmunmap : env.munmap arg = true) :
    (childFuncBody env child first_call arg).fate.status = some EXIT_SUCCESS ∧
      (childFunc env first_call arg).fate.status = some EXIT_SUCCESS ∧
      (first_call = true → (main env (some arg)).fate.status = some EXIT_SUCCESS) := by
  have h1 := childFuncBody_fate_of_ok env child first_call arg hl hmount hmmap hclone
    hwait hmunmap
  have h2 := childFuncBody_fate_of_ok env (childFunc env) first_call arg hl hmount hmmap
    hclone hwait hmunmap
  rw [← childFunc_unfold] at h2
  refine ⟨by rw [h1]; rfl, by rw [h2]; rfl, ?_⟩
  intro hf
  subst hf
  simp [main, h2, Fate.status]

theorem parent_status_ignores_child_witness :
    (1 : Int) > 0 ∧ (true = true ∨ Env.mountFailsAt0.mount 1 = true) ∧
      Env.mountFailsAt0.mmap 1 = true ∧ Env.mountFailsAt0.clone 1 = true ∧
      Env.mountFailsAt0.waitpid 1 = true ∧ Env.mountFailsAt0.munmap 1 = true ∧
      ((childFuncBody Env.mountFailsAt0 (fun _ _ => errExit 0 "mount") true 1).fate.status
          = some EXIT_SUCCESS ∧
        (childFunc Env.mountFailsAt0 true 1).fate.status = some EXIT_SUCCESS ∧
        (true = true → (main Env.mountFailsAt0 (some 1)).fate.status = some EXIT_SUCCESS)) :=
  ⟨by decide, by decide, by decide, by decide, by decide, by decide,
   parent_status_ignores_child Env.mountFailsAt0 (fun _ _ => errExit 0 "mount") true 1
     (by decide) (by decide) (by decide) (by decide) (by decide) (by decide)⟩

/-- A run of depth 2 in which the `mount` of the innermost process fails: that
process exits with `EXIT_FAILURE`, its parent returns 0 and the process of
`main` exits with `EXIT_SUCCESS`. -/
theorem deep_failure_invisible :
    main Env.mountFailsAt0 (some 2) =
      ⟨[⟨2, .mmap true⟩,
        ⟨2, .clone 1 true⟩,
        ⟨1, .mkdir "/proc1" true⟩,
        ⟨1, .mount "/proc1" true⟩,
        ⟨1, .printf "Mounting procfs at /proc1\n"⟩,
        ⟨1, .mmap true⟩,
        ⟨1, .clone 0 true⟩,
        ⟨0, .mkdir "/proc0" true⟩,
        ⟨0, .mount "/proc0" false⟩,
        ⟨0, .perror "mount"⟩,
        ⟨0, .exit EXIT_FAILURE⟩,
        ⟨1, .waitpid 0 true⟩,
        ⟨1, .munmap true⟩,
        ⟨1, .ret 0⟩,
        ⟨2, .waitpid 1 true⟩,
        ⟨2, .munmap true⟩,
        ⟨2, .ret 0⟩,
        ⟨2, .exit EXIT_SUCCESS⟩], .exited EXIT_SUCCESS⟩ := by
  decide

/-! ## The run in which no system call fails -/

theorem childFunc_allOk_zero (fc : Bool) :
    childFunc Env.allOk fc 0 =
      ⟨mountEvents fc 0 ++
        [⟨0, .printf "Final child sleeping\n"⟩,
         ⟨0, .execlp "sleep" ["sleep", "1000"] true⟩], .execed⟩ := by
  cases fc <;> decide

theorem childFunc_allOk_succ (fc : Bool) (n : Nat) :
    childFunc Env.allOk fc ((n : Int) + 1) =
      ⟨mountEvents fc ((n : Int) + 1) ++
        ([⟨(n : Int) + 1, .mmap true⟩, ⟨(n : Int) + 1, .clone n true⟩] ++
          ((childFunc Env.allOk false n).trace ++
            [⟨(n : Int) + 1, .waitpid n true⟩, ⟨(n : Int) + 1, .munmap true⟩,
             ⟨(n : Int) + 1, .ret 0⟩])), .returned 0⟩ := by
  have hpos : (n : Int) + 1 > 0 := by omega
  rw [childFunc_unfold]
  cases fc <;>
    simp [childFuncBody, childFuncTail, hpos, Env.allOk, Outcome.pre, mountEvents]

theorem main_allOk_zero :
    (main Env.allOk (some 0)).trace = (childFunc Env.allOk true 0).trace := by
  decide

theorem main_allOk_succ (n : Nat) :
    (main Env.allOk (some ((n : Int) + 1))).trace =
      (childFunc Env.allOk true ((n : Int) + 1)).trace ++
        [⟨(n : Int) + 1, .exit EXIT_SUCCESS⟩] := by
  simp [main, childFunc_allOk_succ]

theorem countdown_length (n : Nat) : (countdown n).length = n := by
  induction n with
  | zero => rfl
  | succ n ih => simp [countdown, ih]

theorem mem_countdown (n : Nat) (l : Int) : l ∈ countdown n ↔ 0 ≤ l ∧ l < n := by
  induction n with
  | zero => simp [countdown]
  | succ n ih => simp [countdown, ih]; omega

/-- The `mount` events of the run without failure, in order. -/
theorem childFunc_allOk_mounts (fc : Bool) (n : Nat) :
    (childFunc Env.allOk fc n).trace.filter (fun e => e.call.isMount) =
      (mountEvents fc n).filter (fun e => e.call.isMount) ++
        (countdown n).map (fun l => ⟨l, .mount (mount_point l) true⟩) := by
  induction n generalizing fc with
  | zero =>
    simp only [Nat.cast_zero, childFunc_allOk_zero]
    simp [countdown, Call.isMount]
  | succ n ih =>
    simp only [Nat.cast_succ, childFunc_allOk_succ, List.filter_append, ih false]
    cases fc <;> simp [countdown, Call.isMount, mountEvents]

/-- The `clone` events of the run without failure, in order. -/
theorem childFunc_allOk_clones (fc : Bool) (n : Nat) :
    (childFunc Env.allOk fc n).trace.filter (fun e => e.call.isClone) =
      (countdown n).map (fun l => ⟨l + 1, .clone l true⟩) := by
  induction n generalizing fc with
  | zero =>
    simp only [Nat.cast_zero, childFunc_allOk_zero]
    cases fc <;> simp [countdown, Call.isClone, mountEvents]
  | succ n ih =>
    simp only [Nat.cast_succ, childFunc_allOk_succ, List.filter_append, ih false]
    cases fc <;> simp [countdown, Call.isClone, mountEvents]

/-- The `execlp` events of the run without failure. -/
theorem childFunc_allOk_execs (fc : Bool) (n : Nat) :
    (childFunc Env.allOk fc n).trace.filter (fun e => e.call.isExec) =
      [⟨0, .execlp "sleep" ["sleep", "1000"] true⟩] := by
  induction n generalizing fc with
  | zero =>
    simp only [Nat.cast_zero, childFunc_allOk_zero]
    cases fc <;> simp [Call.isExec, mountEvents]
  | succ n ih =>
    simp only [Nat.cast_succ, childFunc_allOk_succ, List.filter_append, ih false]
    cases fc <;> simp [Call.isExec, mountEvents]

/-- Passing from `childFunc` to `main` adds at most the final `exit`, which no
classifier `p` of system calls selects. -/
theorem main_allOk_filter (p : Call → Bool) (hp : p (.exit EXIT_SUCCESS) = false) (d : Nat) :
    (main Env.allOk (some (d : Int))).trace.filter (fun e => p e.call) =
      (childFunc Env.allOk true d).trace.filter (fun e => p e.call) := by
  cases d with
  | zero => simp only [Nat.cast_zero, main_allOk_zero]
  | succ n =>
    simp only [Nat.cast_succ, main_allOk_succ]
    simp [List.filter_append, hp]

/-- C1: in the run started from `main` with depth `d` in which no system call
fails there are exactly `d` `clone` events and exactly `d` `mount` events, and
the processes that mount are, in order, those started with `d - 1, ..., 0`:
every generation except the one started by `main` (which holds `d`). -/
theorem clone_and_mount_counts (d : Nat) :
    ((main Env.allOk (some (d : Int))).trace.filter (fun e => e.call.isClone)).length = d ∧
      ((main Env.allOk (some (d : Int))).trace.filter (fun e => e.call.isMount)).length = d ∧
      ((main Env.allOk (some (d : Int))).trace.filter (fun e => e.call.isMount)).map Ev.who
        = countdown d ∧
      ((main Env.allOk (some (d : Int))).trace.filter (fun e => e.call.isClone)).map Ev.who
        = (countdown d).map (fun l => l + 1) := by
  rw [main_allOk_filter Call.isClone rfl, main_allOk_filter Call.isMount rfl,
    childFunc_allOk_clones, childFunc_allOk_mounts]
  simp [mountEvents, countdown_length, Function.comp_def]

theorem countdown_getElem? (n i : Nat) (h : i < n) :
    (countdown n)[i]? = some ((n : Int) - 1 - i) := by
  induction n generalizing i with
  | zero => omega
  | succ n ih =>
    cases i with
    | zero => simp [countdown]
    | succ i =>
      have hi : i < n := by omega
      simp only [countdown, List.getElem?_cons_succ, ih i hi]
      congr 1
      push_cast
      omega

/-- For a level below ten the mount point is `/proc` and the decimal digit. -/
theorem mount_point_digit (l : Nat) (h : l < 10) :
    mount_point (l : Int) = "/proc" ++ toString l := by
  interval_cases l <;> decide

/-- C10: in the run started from `main` with depth `d`, `1 <= d <= 10`, in
which no system call fails, the `k`-th `clone` (`k = 1..d`) is issued by the
process holding `d - k + 1` and starts a process on `childFunc` with level
`d - k`; the `k`-th `mount` is made by that process, on `/proc` followed by the
decimal digit of `d - k`; there are `d` of each.  The only `execlp` is made by
the process whose level is 0.  For the default depth the mount points are
`/proc4`, `/proc3`, `/proc2`, `/proc1`, `/proc0`. -/
theorem levels_and_mount_points (d k : Nat) (hd : d ≤ 10) (hk1 : 1 ≤ k) (hkd : k ≤ d) :
    ((main Env.allOk (some (d : Int))).trace.filter (fun e => e.call.isClone))[k - 1]? =
        some ⟨(d : Int) - k + 1, .clone ((d : Int) - k) true⟩ ∧
      ((main Env.allOk (some (d : Int))).trace.filter (fun e => e.call.isMount))[k - 1]? =
        some ⟨(d : Int) - k, .mount ("/proc" ++ toString (d - k)) true⟩ ∧
      ((main Env.allOk (some (d : Int))).trace.filter (fun e => e.call.isClone)).length = d ∧
      ((main Env.allOk (some (d : Int))).trace.filter (fun e => e.call.isMount)).length = d ∧
      (main Env.allOk (some (d : Int))).trace.filter (fun e => e.call.isExec) =
        [⟨0, .execlp "sleep" ["sleep", "1000"] true⟩] ∧
      (main Env.allOk none).trace.filterMap (fun e => e.call.mountTarget) =
        ["/proc4", "/proc3", "/proc2", "/proc1", "/proc0"] := by
  have hi : k - 1 < d := by omega
  have hc : ((d : Int) - 1 - ((k - 1 : Nat) : Int)) = (d : Int) - k := by omega
  have hn : (d : Int) - k = ((d - k : Nat) : Int) := by omega
  rw [main_allOk_filter Call.isClone rfl, main_allOk_filter Call.isMount rfl,
    main_allOk_filter Call.isExec rfl,
    childFunc_allOk_clones, childFunc_allOk_mounts, childFunc_allOk_execs]
  refine ⟨?_, ?_, ?_, ?_, rfl, by decide⟩
  · rw [List.getElem?_map, countdown_getElem? d (k - 1) hi, hc]
    rfl
  · simp only [mountEvents, if_true, List.filter_nil, List.nil_append]
    rw [List.getElem?_map, countdown_getElem? d (k - 1) hi, hc, hn,
      ← mount_point_digit (d - k) (by omega)]
    rfl
  · simp [countdown_length]
  · simp [mountEvents, countdown_length]

theorem levels_and_mount_points_witness :
    (5 : Nat) ≤ 10 ∧ 1 ≤ 2 ∧ 2 ≤ 5 ∧
    (((main Env.allOk (some ((5 : Nat) : Int))).trace.filter
          (fun e => e.call.isClone))[2 - 1]? =
        some ⟨((5 : Nat) : Int) - (2 : Nat) + 1, .clone (((5 : Nat) : Int) - (2 : Nat)) true⟩ ∧
      ((main Env.allOk (some ((5 : Nat) : Int))).trace.filter
          (fun e => e.call.isMount))[2 - 1]? =
        some ⟨((5 : Nat) : Int) - (2 : Nat), .mount ("/proc" ++ toString (5 - 2)) true⟩ ∧
      ((main Env.allOk (some ((5 : Nat) : Int))).trace.filter
          (fun e => e.call.isClone)).length = 5 ∧
      ((main Env.allOk (some ((5 : Nat) : Int))).trace.filter
          (fun e => e.call.isMount)).length = 5 ∧
      (main Env.allOk (some ((5 : Nat) : Int))).trace.filter (fun e => e.call.isExec) =
        [⟨0, .execlp "sleep" ["sleep", "1000"] true⟩] ∧
      (main Env.allOk none).trace.filterMap (fun e => e.call.mountTarget) =
        ["/proc4", "/proc3", "/proc2", "/proc1", "/proc0"]) :=
  ⟨by decide, by decide, by decide,
   levels_and_mount_points 5 2 (by decide) (by decide) (by decide)⟩

/-! ## The life of one stack -/

/-- In the run without failure, a process started with `n` and its descendants
are named by values not above `n`. -/
theorem childFunc_allOk_who (fc : Bool) (n : Nat) :
    ∀ e ∈ (childFunc Env.allOk fc n).trace, e.who ≤ (n : Int) := by
  induction n generalizing fc with
  | zero =>
    simp only [Nat.cast_zero, childFunc_allOk_zero]
    cases fc <;> simp [mountEvents]
  | succ n ih =>
    simp only [Nat.cast_succ, childFunc_allOk_succ]
    intro e he
    simp only [List.mem_append] at he
    rcases he with he | he | he | he
    · cases fc <;> simp [mountEvents] at he
      rcases he with he | he | he <;> simp [he]
    · simp at he
      rcases he with he | he <;> simp [he]
    · have := ih false e he
      omega
    · simp at he
      rcases he with he | he | he <;> simp [he]

theorem stackEvOf_mountEvents (a : Int) (fc : Bool) (arg : Int) :
    (mountEvents fc arg).filter (stackEvOf a) = [] := by
  cases fc <;> simp [mountEvents, stackEvOf, Call.isStackEv]

/-- The stack and return events of one process in the run without failure. -/
theorem childFunc_allOk_stackEvs (fc : Bool) (n : Nat) (a : Int) (h1 : 1 ≤ a) (h2 : a ≤ n) :
    (childFunc Env.allOk fc n).trace.filter (stackEvOf a) =
      [⟨a, .mmap true⟩, ⟨a, .clone (a - 1) true⟩, ⟨a, .waitpid (a - 1) true⟩,
       ⟨a, .munmap true⟩, ⟨a, .ret 0⟩] := by
  induction n generalizing fc with
  | zero => omega
  | succ n ih =>
    simp only [Nat.cast_succ, childFunc_allOk_succ, List.filter_append, stackEvOf_mountEvents,
      List.nil_append]
    by_cases ha : a = (n : Int) + 1
    · have hchild : (childFunc Env.allOk false n).trace.filter (stackEvOf a) = [] := by
        rw [List.filter_eq_nil_iff]
        intro e he
        have := childFunc_allOk_who false n e he
        have hne : e.who ≠ a := by omega
        simp [stackEvOf, hne]
      rw [hchild]
      subst ha
      simp [stackEvOf, Call.isStackEv]
    · have ha2 : a ≤ (n : Int) := by push_cast at h2; omega
      rw [ih false ha2]
      have hne : ¬ ((n : Int) + 1 = a) := fun h => ha h.symm
      simp [stackEvOf, hne]

/-- The events of a child lie between the `clone` and the `waitpid` of its parent. -/
theorem childFunc_allOk_split (fc : Bool) (n : Nat) (a : Int) (h1 : 1 ≤ a) (h2 : a ≤ n) :
    ∃ before after : List Ev,
      (childFunc Env.allOk fc n).trace =
        before ++ [⟨a, .mmap true⟩, ⟨a, .clone (a - 1) true⟩] ++
          (childFunc Env.allOk false (a - 1)).trace ++
          [⟨a, .waitpid (a - 1) true⟩, ⟨a, .munmap true⟩, ⟨a, .ret 0⟩] ++ after := by
  induction n generalizing fc with
  | zero => omega
  | succ n ih =>
    simp only [Nat.cast_succ, childFunc_allOk_succ]
    by_cases ha : a = (n : Int) + 1
    · subst ha
      refine ⟨mountEvents fc ((n : Int) + 1), [], ?_⟩
      simp
    · have ha2 : a ≤ (n : Int) := by push_cast at h2; omega
      obtain ⟨b, c, hbc⟩ := ih false ha2
      refine ⟨mountEvents fc ((n : Int) + 1) ++
          [⟨(n : Int) + 1, .mmap true⟩, ⟨(n : Int) + 1, .clone n true⟩] ++ b,
        c ++ [⟨(n : Int) + 1, .waitpid n true⟩, ⟨(n : Int) + 1, .munmap true⟩,
          ⟨(n : Int) + 1, .ret 0⟩], ?_⟩
      rw [hbc]
      simp

/-- The `mmap` events of the run without failure, in order. -/
theorem childFunc_allOk_mmaps (fc : Bool) (n : Nat) :
    (childFunc Env.allOk fc n).trace.filter (fun e => e.call.isMmap) =
      (countdown n).map (fun l => ⟨l + 1, .mmap true⟩) := by
  induction n generalizing fc with
  | zero =>
    simp only [Nat.cast_zero, childFunc_allOk_zero]
    cases fc <;> simp [countdown, Call.isMmap, mountEvents]
  | succ n ih =>
    simp only [Nat.cast_succ, childFunc_allOk_succ, List.filter_append, ih false]
    cases fc <;> simp [countdown, Call.isMmap, mountEvents]

/-- C5: in the run started from `main` with depth `d` in which no system call
fails, the processes that map a stack are those holding `d, ..., 1`, once
each.  For each such process `a`, its stack and return events are, in this
order and exactly once each, `mmap`, `clone`, `waitpid` on the child it
cloned, `munmap`, `return 0`; and the whole life of that child lies between
this `clone` and this `waitpid`, hence before the `munmap`. -/
theorem stack_released_once_after_wait (d : Nat) (a : Int) (h1 : 1 ≤ a) (h2 : a ≤ d) :
    ((main Env.allOk (some (d : Int))).trace.filter (fun e => e.call.isMmap)).map Ev.who =
        (countdown d).map (fun l => l + 1) ∧
      (main Env.allOk (some (d : Int))).trace.filter (stackEvOf a) =
        [⟨a, .mmap true⟩, ⟨a, .clone (a - 1) true⟩, ⟨a, .waitpid (a - 1) true⟩,
         ⟨a, .munmap true⟩, ⟨a, .ret 0⟩] ∧
      ∃ before after : List Ev,
        (main Env.allOk (some (d : Int))).trace =
          before ++ [⟨a, .mmap true⟩, ⟨a, .clone (a - 1) true⟩] ++
            (childFunc Env.allOk false (a - 1)).trace ++
            [⟨a, .waitpid (a - 1) true⟩, ⟨a, .munmap true⟩, ⟨a, .ret 0⟩] ++ after := by
  refine ⟨?_, ?_, ?_⟩
  · rw [main_allOk_filter Call.isMmap rfl, childFunc_allOk_mmaps]
    simp [Function.comp_def]
  · cases d with
    | zero => simp at h2; omega
    | succ n =>
      simp only [Nat.cast_succ, main_allOk_succ, List.filter_append]
      have := childFunc_allOk_stackEvs true (n + 1) a h1 h2
      simp only [Nat.cast_succ] at this
      rw [this]
      simp [stackEvOf, Call.isStackEv]
  · cases d with
    | zero => simp at h2; omega
    | succ n =>
      obtain ⟨b, c, hbc⟩ := childFunc_allOk_split true (n + 1) a h1 h2
      simp only [Nat.cast_succ] at hbc
      refine ⟨b, c ++ [⟨(n : Int) + 1, .exit EXIT_SUCCESS⟩], ?_⟩
      simp only [Nat.cast_succ, main_allOk_succ]
      rw [hbc]
      simp

theorem stack_released_once_after_wait_witness :
    (1 : Int) ≤ 2 ∧ (2 : Int) ≤ ((3 : Nat) : Int) ∧
    (((main Env.allOk (some ((3 : Nat) : Int))).trace.filter
          (fun e => e.call.isMmap)).map Ev.who =
        (countdown 3).map (fun l => l + 1) ∧
      (main Env.allOk (some ((3 : Nat) : Int))).trace.filter (stackEvOf 2) =
        [⟨2, .mmap true⟩, ⟨2, .clone (2 - 1) true⟩, ⟨2, .waitpid (2 - 1) true⟩,
         ⟨2, .munmap true⟩, ⟨2, .ret 0⟩] ∧
      ∃ before after : List Ev,
        (main Env.allOk (some ((3 : Nat) : Int))).trace =
          before ++ [⟨2, .mmap true⟩, ⟨2, .clone (2 - 1) true⟩] ++
            (childFunc Env.allOk false (2 - 1)).trace ++
            [⟨2, .waitpid (2 - 1) true⟩, ⟨2, .munmap true⟩, ⟨2, .ret 0⟩] ++ after) :=
  ⟨by decide, by decide, stack_released_once_after_wait 3 2 (by decide) (by decide)⟩

/-! ## The mount points of different levels -/

theorem char_ofNat_toNat (c : Nat) (h : c < 256) : (Char.ofNat c).toNat = c := by
  interval_cases c <;> rfl

theorem levelChar_lt (l : Int) : levelChar l < 256 := by
  unfold levelChar
  omega

/-- What follows `/proc` in the mount point: nothing when the byte is zero
(the string ends there), else the one character. -/
theorem mount_point_data (l : Int) :
    (mount_point l).data.drop 5 =
      if levelChar l = 0 then [] else [Char.ofNat (levelChar l)] := by
  unfold mount_point cString snprintf_proc PATH_MAX
  by_cases h : levelChar l = 0
  · simp [h, List.takeWhile]
  · have hb : (levelChar l != 0) = true := by simp [h]
    simp [h, hb, List.takeWhile]

theorem levelChar_of_mount_point_eq (i j : Int) (h : mount_point i = mount_point j) :
    levelChar i = levelChar j := by
  have hi := mount_point_data i
  have hj := mount_point_data j
  rw [h, hj] at hi
  have ci := char_ofNat_toNat _ (levelChar_lt i)
  have cj := char_ofNat_toNat _ (levelChar_lt j)
  by_cases h1 : levelChar i = 0 <;> by_cases h2 : levelChar j = 0 <;> simp [h1, h2] at hi
  · omega
  · rw [← ci, ← cj, hi]

/-- Two levels have the same mount point exactly when they differ by a
multiple of 256. -/
theorem mount_point_eq_iff (i j : Int) :
    mount_point i = mount_point j ↔ (i - j) % 256 = 0 := by
  constructor
  · intro h
    have := levelChar_of_mount_point_eq i j h
    unfold levelChar at this
    omega
  · intro h
    have : levelChar i = levelChar j := by
      unfold levelChar
      omega
    unfold mount_point
    rw [this]

theorem countdown_nodup (n : Nat) : (countdown n).Nodup := by
  induction n with
  | zero => simp [countdown]
  | succ n ih =>
    simp only [countdown, List.nodup_cons, mem_countdown]
    exact ⟨by omega, ih⟩

/-- C2, as the code has it: for a depth `d` of at most 256, two different
levels `i` and `j` with `0 <= i, j < d` get different mount points, and the
mount targets of the run started from `main` with depth `d` in which no system
call fails are pairwise different. -/
theorem mount_points_distinct (d : Nat) (hd : d ≤ 256) (i j : Int)
    (hi0 : 0 ≤ i) (hi : i < d) (hj0 : 0 ≤ j) (hj : j < d) (hij : i ≠ j) :
    mount_point i ≠ mount_point j ∧
      (((main Env.allOk (some (d : Int))).trace.filter (fun e => e.call.isMount)).map
        (fun e => e.call.mountTarget)).Nodup := by
  constructor
  · intro h
    have := (mount_point_eq_iff i j).mp h
    omega
  · rw [main_allOk_filter Call.isMount rfl, childFunc_allOk_mounts]
    simp only [mountEvents, if_true, List.filter_nil, List.nil_append, List.map_map]
    apply List.Nodup.map_on _ (countdown_nodup d)
    intro x hx y hy hxy
    rw [mem_countdown] at hx hy
    simp only [Function.comp_apply, Call.mountTarget, Option.some.injEq] at hxy
    have := (mount_point_eq_iff x y).mp hxy
    omega

theorem mount_points_distinct_witness :
    (5 : Nat) ≤ 256 ∧ (0 : Int) ≤ 0 ∧ (0 : Int) < ((5 : Nat) : Int) ∧ (0 : Int) ≤ 4 ∧
      (4 : Int) < ((5 : Nat) : Int) ∧ (0 : Int) ≠ 4 ∧
      (mount_point 0 ≠ mount_point 4 ∧
        (((main Env.allOk (some ((5 : Nat) : Int))).trace.filter
          (fun e => e.call.isMount)).map (fun e => e.call.mountTarget)).Nodup) :=
  ⟨by decide, by decide, by decide, by decide, by decide, by decide,
   mount_points_distinct 5 (by decide) 0 4 (by decide) (by decide) (by decide) (by decide)
     (by decide)⟩

/-- C2 fails as stated: for depth 257 the levels 0 and 256 are both used
(`0 <= 0, 256 < 257`) and differ, yet both give the mount point `/proc0`; in
the run started from `main` with depth 257 in which no system call fails, the
processes holding 256 and 0 both mount on `/proc0`. -/
theorem mount_point_collision :
    (0 : Int) ≠ 256 ∧ (0 : Int) ≤ 0 ∧ (0 : Int) < 257 ∧ (0 : Int) ≤ 256 ∧ (256 : Int) < 257 ∧
      mount_point 0 = "/proc0" ∧ mount_point 256 = "/proc0" ∧
      (⟨256, .mount "/proc0" true⟩ : Ev) ∈ (main Env.allOk (some 257)).trace ∧
      (⟨0, .mount "/proc0" true⟩ : Ev) ∈ (main Env.allOk (some 257)).trace := by
  have hm : ∀ l : Int, 0 ≤ l → l < 257 →
      (⟨l, .mount (mount_point l) true⟩ : Ev) ∈ (main Env.allOk (some 257)).trace := by
    intro l h0 h1
    have hf : (⟨l, .mount (mount_point l) true⟩ : Ev) ∈
        (main Env.allOk (some ((257 : Nat) : Int))).trace.filter (fun e => e.call.isMount) := by
      rw [main_allOk_filter Call.isMount rfl, childFunc_allOk_mounts]
      simp only [mountEvents, if_true, List.filter_nil, List.nil_append, List.mem_map]
      exact ⟨l, (mem_countdown 257 l).mpr ⟨h0, by exact_mod_cast h1⟩, rfl⟩
    exact (List.mem_filter.mp hf).1
  have h0 : mount_point 0 = "/proc0" := by decide
  have h256 : mount_point 256 = "/proc0" := by decide
  refine ⟨by decide, by decide, by decide, by decide, by decide, h0, h256, ?_, ?_⟩
  · have := hm 256 (by decide) (by decide)
    rwa [h256] at this
  · have := hm 0 (by decide) (by decide)
    rwa [h0] at this

end MultiPidns
